import Mathlib

/-!
Verification of the chronotask-api progression and authentication core.

Shallow embedding of the Go sources:
* `internal/domain/entity` — `Character` (XP / level-up algorithm) and
  `CharacterAttribute` (value invariants), with their `New*` validating
  constructors and `Reconstitute*` loading constructors;
* `internal/application/usecase` — `CreateCharacterUseCase` (character plus
  base-attribute roster), `LoginUserUseCase`, `GetCharacterAttributesUseCase`;
* `internal/infrastructure/service/jwt_service.go` — token issue / validate /
  refresh, modelled symbolically;
* `internal/infrastructure/persistence/postgres_character_repository.go` —
  the owner-scoped lookup `FindByIDAndUserID`, with the database table
  modelled as a list of rows.

Go `int` is modelled as unbounded `Int` (no claim involves 64-bit overflow),
`time.Time` as an abstract `Int` instant, `len(s)` as the UTF-8 byte length
`goLen` (Go `len` counts bytes) and `strings.TrimSpace` as `goTrim`
(whitespace trimming on both ends).
-/

namespace ChronoTask

/-- Go `len` on a string: its UTF-8 byte length. -/
def goLen (s : String) : Nat :=
  (s.data.map Char.utf8Size).sum

/-- Go `strings.TrimSpace`: drop whitespace from both ends. -/
def goTrim (s : String) : String :=
  ⟨((s.data.dropWhile Char.isWhitespace).reverse.dropWhile Char.isWhitespace).reverse⟩

/-- `Character.XpForNextLevel` on a level `L ≥ 0`:
`int(math.Round(100 * math.Pow(float64(level), 1.5)))`, read at exact real
arithmetic.  `100 * L^1.5 = √(40000 * L³) / 2 · 2`, and rounding a positive
real `x` half away from zero equals `(⌊2x⌋ + 1) / 2`, so the nearest integer
is computed from `Nat.sqrt (40000 * L^3) = ⌊2x⌋`. -/
def xpForNextLevelNat (L : Nat) : Nat :=
  (Nat.sqrt (40000 * L ^ 3) + 1) / 2

/-- `Character.XpForNextLevel` over the modelled Go `int` level.  For
`level = 0` the Go code yields `0`; for negative levels it converts a NaN
(unspecified result), modelled as `0` here — every claim restricts attention
to `level ≥ 1`, where this branch is never taken. -/
def xpForNextLevel (level : Int) : Int :=
  if level ≤ 0 then 0 else (xpForNextLevelNat level.toNat : Int)

/-- `entity.Character` (internal/domain/entity): id, name, level, current XP,
total XP, owning user id, creation instant. -/
structure Character where
  id : String
  name : String
  level : Int
  currentXp : Int
  totalXp : Int
  userID : String
  createdAt : Int
  deriving Repr, DecidableEq

/-- The level-up loop body of `Character.AddXp`:
`for c.currentXp >= c.XpForNextLevel() { c.currentXp -= c.XpForNextLevel(); c.level++; levelsGained++ }`.
State is `(level, currentXp, levelsGained)`.  The conjunct
`0 < xpForNextLevel lvl` in the guard is a modelling artifact needed for
well-founded recursion: it can only differ from the Go guard when
`xpForNextLevel lvl ≤ 0`, a state (only reachable from `lvl ≤ 0`) in which
the Go loop never terminates.  For `lvl ≥ 1` the conjunct holds at every
iteration, so the function coincides with the Go loop there
(`levelUpFuel` below gives the unmodified loop as a step-indexed function,
and the two are proved to agree). -/
def levelUp (lvl cur gained : Int) : Int × Int × Int :=
  if h : xpForNextLevel lvl ≤ cur ∧ 0 < xpForNextLevel lvl then
    levelUp (lvl + 1) (cur - xpForNextLevel lvl) (gained + 1)
  else (lvl, cur, gained)
termination_by cur.toNat
decreasing_by
  omega

/-- The same loop as a step-indexed interpreter with the Go guard verbatim:
`none` means the fuel ran out before the loop exited. -/
def levelUpFuel : Nat → Int → Int → Int → Option (Int × Int × Int)
  | 0, _, _, _ => none
  | fuel + 1, lvl, cur, gained =>
    if xpForNextLevel lvl ≤ cur then
      levelUpFuel fuel (lvl + 1) (cur - xpForNextLevel lvl) (gained + 1)
    else some (lvl, cur, gained)

/-- `Character.AddXp`: rejects negative XP, returns `(c, 0)` unchanged on
zero XP, otherwise adds to both XP counters and runs the level-up loop.
Result is the updated character paired with `levelsGained`. -/
def AddXp (c : Character) (xp : Int) : Except String (Character × Int) :=
  if xp < 0 then .error "xp cannot be negative"
  else if xp = 0 then .ok (c, 0)
  else
    let r := levelUp c.level (c.currentXp + xp) 0
    .ok ({ c with level := r.1, currentXp := r.2.1, totalXp := c.totalXp + xp }, r.2.2)

/-- `entity.NewCharacter`: validating constructor — nonempty id, trimmed name
of 2..50 bytes, nonempty user id; starts at level 1 with 0 XP. -/
def NewCharacter (id name userID : String) (now : Int) : Except String Character :=
  if id = "" then .error "character id cannot be empty"
  else if goTrim name = "" then .error "character name cannot be empty"
  else if goLen (goTrim name) < 2 then .error "character name must be at least 2 characters"
  else if 50 < goLen (goTrim name) then .error "character name cannot exceed 50 characters"
  else if userID = "" then .error "user id cannot be empty"
  else .ok { id := id, name := goTrim name, level := 1, currentXp := 0, totalXp := 0,
             userID := userID, createdAt := now }

/-- `entity.ReconstituteCharacter`: loading constructor, a plain field
assignment with no validation. -/
def ReconstituteCharacter (id name : String) (level currentXp totalXp : Int)
    (userID : String) (createdAt : Int) : Character :=
  { id := id, name := name, level := level, currentXp := currentXp,
    totalXp := totalXp, userID := userID, createdAt := createdAt }

/-- `entity.CharacterAttribute` (internal/domain/entity): numeric id, name,
value, owning character id, creation instant. -/
structure CharacterAttribute where
  id : Int
  attributeName : String
  value : Int
  characterID : String
  createdAt : Int
  deriving Repr, DecidableEq

/-- `entity.NewCharacterAttribute`: validating constructor — trimmed name of
2..50 bytes, non-negative value, nonempty character id; id 0 until the
database assigns one. -/
def NewCharacterAttribute (attributeName : String) (value : Int)
    (characterID : String) (now : Int) : Except String CharacterAttribute :=
  if goTrim attributeName = "" then .error "attribute name cannot be empty"
  else if goLen (goTrim attributeName) < 2 then .error "attribute name must be at least 2 characters"
  else if 50 < goLen (goTrim attributeName) then .error "attribute name cannot exceed 50 characters"
  else if value < 0 then .error "attribute value cannot be negative"
  else if characterID = "" then .error "character id cannot be empty"
  else .ok { id := 0, attributeName := goTrim attributeName, value := value,
             characterID := characterID, createdAt := now }

/-- `CharacterAttribute.UpdateValue`.  The Go mutators update the receiver in
place and return an `error`; they are modelled as returning the post-state
paired with the optional error, the state being unchanged on error.  Rejects
a negative new value, otherwise replaces the stored value. -/
def UpdateValue (ca : CharacterAttribute) (newValue : Int) : CharacterAttribute × Option String :=
  if newValue < 0 then (ca, some "attribute value cannot be negative")
  else ({ ca with value := newValue }, none)

/-- `CharacterAttribute.IncrementValue`: rejects a negative amount, otherwise
adds it to the stored value. -/
def IncrementValue (ca : CharacterAttribute) (amount : Int) : CharacterAttribute × Option String :=
  if amount < 0 then (ca, some "increment amount cannot be negative")
  else ({ ca with value := ca.value + amount }, none)

/-- `CharacterAttribute.DecrementValue`: rejects a negative amount and a
decrement that would drive the value below zero (both leaving the value
unchanged), otherwise subtracts. -/
def DecrementValue (ca : CharacterAttribute) (amount : Int) : CharacterAttribute × Option String :=
  if amount < 0 then (ca, some "decrement amount cannot be negative")
  else if ca.value - amount < 0 then (ca, some "cannot decrement below 0")
  else ({ ca with value := ca.value - amount }, none)

/-- `entity.ReconstituteCharacterAttribute`: loading constructor, a plain
field assignment with no validation. -/
def ReconstituteCharacterAttribute (id : Int) (attributeName : String) (value : Int)
    (characterID : String) (createdAt : Int) : CharacterAttribute :=
  { id := id, attributeName := attributeName, value := value,
    characterID := characterID, createdAt := createdAt }

/-- `Nat.sqrt` evaluated through its defining bracketing (the recursor of
`Nat.sqrt` does not reduce definitionally). -/
lemma natSqrt_eq_of (n a : Nat) (h₁ : a * a ≤ n) (h₂ : n < (a + 1) * (a + 1)) :
    Nat.sqrt n = a :=
  (Nat.eq_sqrt.mpr ⟨h₁, h₂⟩).symm

lemma xpLevelNat_one : xpForNextLevelNat 1 = 100 := by
  have h : Nat.sqrt 40000 = 200 := natSqrt_eq_of _ _ (by norm_num) (by norm_num)
  rw [xpForNextLevelNat]
  norm_num [h]

lemma xpLevelNat_two : xpForNextLevelNat 2 = 283 := by
  have h : Nat.sqrt 320000 = 565 := natSqrt_eq_of _ _ (by norm_num) (by norm_num)
  rw [xpForNextLevelNat]
  norm_num [h]

lemma xpLevelNat_three : xpForNextLevelNat 3 = 520 := by
  have h : Nat.sqrt 1080000 = 1039 := natSqrt_eq_of _ _ (by norm_num) (by norm_num)
  rw [xpForNextLevelNat]
  norm_num [h]

lemma xpLevel_one : xpForNextLevel 1 = 100 := by
  rw [xpForNextLevel]
  norm_num [xpLevelNat_one]

lemma xpLevel_two : xpForNextLevel 2 = 283 := by
  rw [xpForNextLevel]
  norm_num [show Int.toNat 2 = 2 from rfl, xpLevelNat_two]

lemma xpLevel_three : xpForNextLevel 3 = 520 := by
  rw [xpForNextLevel]
  norm_num [show Int.toNat 3 = 3 from rfl, xpLevelNat_three]

lemma xpForNextLevelNat_ge_100 (L : Nat) (h : 1 ≤ L) : 100 ≤ xpForNextLevelNat L := by
  have h1 : (40000 : Nat) ≤ 40000 * L ^ 3 :=
    Nat.le_mul_of_pos_right _ (Nat.pos_pow_of_pos 3 h)
  have h2 : Nat.sqrt 40000 ≤ Nat.sqrt (40000 * L ^ 3) := Nat.sqrt_le_sqrt h1
  have h3 : Nat.sqrt 40000 = 200 := natSqrt_eq_of _ _ (by norm_num) (by norm_num)
  rw [xpForNextLevelNat]
  omega

lemma xpForNextLevel_ge_100 (lvl : Int) (h : 1 ≤ lvl) : 100 ≤ xpForNextLevel lvl := by
  rw [xpForNextLevel, if_neg (by omega)]
  have := xpForNextLevelNat_ge_100 lvl.toNat (by omega)
  omega

/-- Postconditions of the level-up loop, by strong induction on the XP
counter: the level never drops, the levels-gained counter counts exactly the
level increments, the final XP sits strictly below the new threshold, and a
non-negative XP counter stays non-negative. -/
lemma levelUp_post_aux (bound : Nat) : ∀ lvl cur gained : Int, cur.toNat < bound → 1 ≤ lvl →
    lvl ≤ (levelUp lvl cur gained).1 ∧
    (levelUp lvl cur gained).2.2 = gained + ((levelUp lvl cur gained).1 - lvl) ∧
    (levelUp lvl cur gained).2.1 < xpForNextLevel (levelUp lvl cur gained).1 ∧
    (0 ≤ cur → 0 ≤ (levelUp lvl cur gained).2.1) := by
  induction bound with
  | zero => intro lvl cur gained hb; omega
  | succ n IH =>
    intro lvl cur gained hb hl
    have h100 := xpForNextLevel_ge_100 lvl hl
    rw [levelUp]
    split
    case isTrue h =>
      have hrec := IH (lvl + 1) (cur - xpForNextLevel lvl) (gained + 1) (by omega) (by omega)
      refine ⟨by omega, by omega, hrec.2.2.1, fun _ => hrec.2.2.2 (by omega)⟩
    case isFalse h =>
      have h1 : gained = gained + (lvl - lvl) := by omega
      have h2 : cur < xpForNextLevel lvl := by
        rcases not_and_or.mp h with h' | h' <;> omega
      exact ⟨le_refl _, h1, h2, fun hc => hc⟩

lemma levelUp_post (lvl cur gained : Int) (hl : 1 ≤ lvl) :
    lvl ≤ (levelUp lvl cur gained).1 ∧
    (levelUp lvl cur gained).2.2 = gained + ((levelUp lvl cur gained).1 - lvl) ∧
    (levelUp lvl cur gained).2.1 < xpForNextLevel (levelUp lvl cur gained).1 ∧
    (0 ≤ cur → 0 ≤ (levelUp lvl cur gained).2.1) :=
  levelUp_post_aux (cur.toNat + 1) lvl cur gained (by omega) hl

/-- With enough fuel, the step-indexed Go loop finishes and computes exactly
`levelUp` — the termination argument for levels `≥ 1`. -/
lemma levelUpFuel_complete_aux (bound : Nat) : ∀ lvl cur gained : Int, cur.toNat < bound → 1 ≤ lvl →
    ∃ fuel, levelUpFuel fuel lvl cur gained = some (levelUp lvl cur gained) := by
  induction bound with
  | zero => intro lvl cur gained hb; omega
  | succ n IH =>
    intro lvl cur gained hb hl
    have h100 := xpForNextLevel_ge_100 lvl hl
    by_cases h : xpForNextLevel lvl ≤ cur
    · obtain ⟨fuel, hf⟩ := IH (lvl + 1) (cur - xpForNextLevel lvl) (gained + 1) (by omega) (by omega)
      refine ⟨fuel + 1, ?_⟩
      rw [levelUpFuel, if_pos h, hf]
      conv_rhs => rw [levelUp]
      rw [dif_pos ⟨h, by omega⟩]
    · refine ⟨1, ?_⟩
      rw [levelUpFuel, if_neg h]
      conv_rhs => rw [levelUp]
      rw [dif_neg (by omega)]

lemma levelUpFuel_complete (lvl cur gained : Int) (hl : 1 ≤ lvl) :
    ∃ fuel, levelUpFuel fuel lvl cur gained = some (levelUp lvl cur gained) :=
  levelUpFuel_complete_aux (cur.toNat + 1) lvl cur gained (by omega) hl

/-- One step of strict monotonicity of the XP curve, from the square-root
bracketing: `√(40000 L³) ≤ 200 L²` and `(√(40000 L³) + 2)² ≤ 40000 (L+1)³`. -/
lemma xpForNextLevelNat_lt_succ (L : Nat) (h : 1 ≤ L) :
    xpForNextLevelNat L < xpForNextLevelNat (L + 1) := by
  have hs2 : Nat.sqrt (40000 * L ^ 3) * Nat.sqrt (40000 * L ^ 3) ≤ 40000 * L ^ 3 :=
    Nat.sqrt_le _
  have h34 : L ^ 3 ≤ L ^ 4 := Nat.pow_le_pow_right h (by norm_num)
  have h4 : 40000 * L ^ 3 ≤ (200 * L ^ 2) ^ 2 := by nlinarith
  have hsle : Nat.sqrt (40000 * L ^ 3) ≤ 200 * L ^ 2 := by
    have := Nat.sqrt_le_sqrt h4
    rwa [Nat.sqrt_eq'] at this
  have key : (Nat.sqrt (40000 * L ^ 3) + 2) * (Nat.sqrt (40000 * L ^ 3) + 2) ≤
      40000 * (L + 1) ^ 3 := by nlinarith
  have hstep : Nat.sqrt (40000 * L ^ 3) + 2 ≤ Nat.sqrt (40000 * (L + 1) ^ 3) :=
    Nat.le_sqrt.mpr key
  rw [xpForNextLevelNat, xpForNextLevelNat]
  omega

/-- `(L : ℝ) ^ 1.5` is `√(L³)`. -/
lemma rpow_three_halves (L : Nat) : (L : ℝ) ^ (1.5 : ℝ) = Real.sqrt ((L : ℝ) ^ 3) := by
  have h0 : (0 : ℝ) ≤ (L : ℝ) := Nat.cast_nonneg L
  rw [show (1.5 : ℝ) = ((3 : ℕ) : ℝ) * (1 / 2) by norm_num, Real.rpow_mul h0,
    Real.rpow_natCast, Real.sqrt_eq_rpow]

/-- The integer produced by `xpForNextLevelNat` is exactly the rounding (half
away from zero, which for positive reals is `round`) of `100·L^1.5`. -/
lemma round_xp (L : Nat) :
    round ((100 : ℝ) * Real.sqrt ((L : ℝ) ^ 3)) = (xpForNextLevelNat L : ℤ) := by
  have hcast : ((40000 * L ^ 3 : ℕ) : ℝ) = (200 : ℝ) ^ 2 * (L : ℝ) ^ 3 := by
    push_cast
    ring
  have h2x : Real.sqrt ((40000 * L ^ 3 : ℕ) : ℝ) =
      2 * ((100 : ℝ) * Real.sqrt ((L : ℝ) ^ 3)) := by
    rw [hcast, Real.sqrt_mul (by positivity), Real.sqrt_sq (by norm_num)]
    ring
  have hlow : ((Nat.sqrt (40000 * L ^ 3) : ℕ) : ℝ) ≤
      2 * ((100 : ℝ) * Real.sqrt ((L : ℝ) ^ 3)) :=
    h2x ▸ Real.nat_sqrt_le_real_sqrt
  have hhigh : 2 * ((100 : ℝ) * Real.sqrt ((L : ℝ) ^ 3)) <
      ((Nat.sqrt (40000 * L ^ 3) : ℕ) : ℝ) + 1 :=
    h2x ▸ Real.real_sqrt_lt_nat_sqrt_succ
  have hb1 : 2 * xpForNextLevelNat L ≤ Nat.sqrt (40000 * L ^ 3) + 1 := by
    rw [xpForNextLevelNat]
    omega
  have hb2 : Nat.sqrt (40000 * L ^ 3) ≤ 2 * xpForNextLevelNat L := by
    rw [xpForNextLevelNat]
    omega
  have hb1' : 2 * (xpForNextLevelNat L : ℝ) ≤ ((Nat.sqrt (40000 * L ^ 3) : ℕ) : ℝ) + 1 := by
    exact_mod_cast hb1
  have hb2' : ((Nat.sqrt (40000 * L ^ 3) : ℕ) : ℝ) ≤ 2 * (xpForNextLevelNat L : ℝ) := by
    exact_mod_cast hb2
  rw [round_eq, Int.floor_eq_iff]
  constructor
  · push_cast
    linarith
  · push_cast
    linarith

/-- C3: for every level `L ≥ 1`, `XpForNextLevel` equals the rounding of
`100 × L^1.5` (`math.Round` rounds half away from zero, which on positive
reals is `round`), and the curve is strictly increasing: the value at level
`L + 1` strictly exceeds the value at level `L`. -/
theorem xpForNextLevel_round_strictMono (L : Int) (h : 1 ≤ L) :
    xpForNextLevel L = round ((100 : ℝ) * (L : ℝ) ^ (1.5 : ℝ)) ∧
    xpForNextLevel L < xpForNextLevel (L + 1) := by
  have hcastL : ((L : ℤ) : ℝ) = ((L.toNat : ℕ) : ℝ) := by
    exact_mod_cast (Int.toNat_of_nonneg (by omega : (0 : ℤ) ≤ L)).symm
  constructor
  · rw [xpForNextLevel, if_neg (by omega), hcastL, rpow_three_halves, round_xp]
  · rw [xpForNextLevel, if_neg (by omega), xpForNextLevel, if_neg (by omega)]
    have hmono := xpForNextLevelNat_lt_succ L.toNat (by omega)
    rw [show (L + 1).toNat = L.toNat + 1 by omega]
    exact_mod_cast hmono

/-- C3 witness: the theorem applied at level 1. -/
theorem xpForNextLevel_round_strictMono_witness :
    (1 : Int) ≤ 1 ∧
    (xpForNextLevel 1 = round ((100 : ℝ) * ((1 : Int) : ℝ) ^ (1.5 : ℝ)) ∧
     xpForNextLevel 1 < xpForNextLevel (1 + 1)) :=
  ⟨by norm_num, xpForNextLevel_round_strictMono 1 (by norm_num)⟩

/-- C4: for every character whose level is at least 1 before the call and
every XP amount, the level-up loop inside `AddXp` terminates: run step by
step with the Go guard (`levelUpFuel`), it exits within some finite fuel,
returning exactly the `levelUp` value `AddXp` is defined with. -/
theorem addXp_loop_terminates (c : Character) (xp : Int) (hl : 1 ≤ c.level) :
    ∃ fuel, levelUpFuel fuel c.level (c.currentXp + xp) 0 =
      some (levelUp c.level (c.currentXp + xp) 0) :=
  levelUpFuel_complete _ _ _ hl

/-- C4 witness: the theorem applied to a concrete level-1 character given
500 XP. -/
theorem addXp_loop_terminates_witness :
    (1 : Int) ≤ (ReconstituteCharacter "char-1" "Hero" 1 0 0 "user-1" 0).level ∧
    ∃ fuel, levelUpFuel fuel (ReconstituteCharacter "char-1" "Hero" 1 0 0 "user-1" 0).level
      ((ReconstituteCharacter "char-1" "Hero" 1 0 0 "user-1" 0).currentXp + 500) 0 =
      some (levelUp (ReconstituteCharacter "char-1" "Hero" 1 0 0 "user-1" 0).level
        ((ReconstituteCharacter "char-1" "Hero" 1 0 0 "user-1" 0).currentXp + 500) 0) :=
  ⟨by decide, addXp_loop_terminates (ReconstituteCharacter "char-1" "Hero" 1 0 0 "user-1" 0)
    500 (by decide)⟩

/-- C1 (amended): the claim as stated quantifies over every `currentXp ≥ 0`,
but `AddXp` returns immediately on a zero grant, so a character loaded with
`currentXp` at or above the threshold keeps it there
(`addXp_zero_counterexample`).  Amended with the initial in-range hypothesis
`currentXp < XpForNextLevel(level)`: then for every grant `g ≥ 0` the call
succeeds, afterwards `0 ≤ currentXp < XpForNextLevel(level)`,
`totalXp` grows by exactly `g`, and the returned `levelsGained` is the level
difference. -/
theorem addXp_spec (c : Character) (g : Int) (hl : 1 ≤ c.level)
    (h0 : 0 ≤ c.currentXp) (hlt : c.currentXp < xpForNextLevel c.level) (hg : 0 ≤ g) :
    ∃ c' gained, AddXp c g = .ok (c', gained) ∧
      0 ≤ c'.currentXp ∧ c'.currentXp < xpForNextLevel c'.level ∧
      c'.totalXp = c.totalXp + g ∧ gained = c'.level - c.level := by
  rw [AddXp, if_neg (by omega)]
  by_cases hz : g = 0
  · rw [if_pos hz]
    exact ⟨c, 0, rfl, h0, hlt, by omega, by omega⟩
  · rw [if_neg hz]
    have hp := levelUp_post c.level (c.currentXp + g) 0 hl
    refine ⟨_, _, rfl, ?_, ?_, rfl, ?_⟩
    · exact hp.2.2.2 (by omega)
    · exact hp.2.2.1
    · show (levelUp c.level (c.currentXp + g) 0).2.2 =
        (levelUp c.level (c.currentXp + g) 0).1 - c.level
      omega

/-- C1 witness: level-1 fresh character granted 150 XP. -/
theorem addXp_spec_witness :
    ((1 : Int) ≤ 1 ∧ (0 : Int) ≤ 0 ∧ (0 : Int) < xpForNextLevel 1 ∧ (0 : Int) ≤ 150) ∧
    ∃ c' gained, AddXp (ReconstituteCharacter "char-1" "Hero" 1 0 0 "user-1" 0) 150 =
        .ok (c', gained) ∧
      0 ≤ c'.currentXp ∧ c'.currentXp < xpForNextLevel c'.level ∧
      c'.totalXp = (ReconstituteCharacter "char-1" "Hero" 1 0 0 "user-1" 0).totalXp + 150 ∧
      gained = c'.level - (ReconstituteCharacter "char-1" "Hero" 1 0 0 "user-1" 0).level :=
  ⟨⟨by norm_num, by norm_num, by rw [xpLevel_one]; norm_num, by norm_num⟩,
   addXp_spec (ReconstituteCharacter "char-1" "Hero" 1 0 0 "user-1" 0) 150
     (by decide) (by decide) (by rw [show (ReconstituteCharacter "char-1" "Hero" 1 0 0
       "user-1" 0).level = 1 from rfl, xpLevel_one]; decide) (by decide)⟩

/-- C1 counterexample: the claim as frozen fails at a zero grant on a
character whose stored `currentXp` (200) already meets the level-1 threshold
(100): `AddXp 0` succeeds without normalizing, so afterwards
`currentXp < XpForNextLevel(level)` is false, although the claim's
hypotheses (level ≥ 1, currentXp ≥ 0, grant ≥ 0) all hold. -/
theorem addXp_zero_counterexample :
    (1 : Int) ≤ (ReconstituteCharacter "char-1" "Hero" 1 200 200 "user-1" 0).level ∧
    (0 : Int) ≤ (ReconstituteCharacter "char-1" "Hero" 1 200 200 "user-1" 0).currentXp ∧
    AddXp (ReconstituteCharacter "char-1" "Hero" 1 200 200 "user-1" 0) 0 =
      .ok (ReconstituteCharacter "char-1" "Hero" 1 200 200 "user-1" 0, 0) ∧
    ¬((ReconstituteCharacter "char-1" "Hero" 1 200 200 "user-1" 0).currentXp <
      xpForNextLevel (ReconstituteCharacter "char-1" "Hero" 1 200 200 "user-1" 0).level) := by
  refine ⟨by decide, by decide, rfl, ?_⟩
  rw [show (ReconstituteCharacter "char-1" "Hero" 1 200 200 "user-1" 0).level = 1 from rfl,
    xpLevel_one]
  decide

/-- C8: for an attribute value `v ≥ 0` and amount `a ≥ 0`, `DecrementValue`
errors and leaves the stored value unchanged whenever `v − a < 0`, and
otherwise succeeds storing `v − a`. -/
theorem decrementValue_spec (ca : CharacterAttribute) (a : Int)
    (hv : 0 ≤ ca.value) (ha : 0 ≤ a) :
    (ca.value - a < 0 →
      (DecrementValue ca a).1 = ca ∧ ∃ e, (DecrementValue ca a).2 = some e) ∧
    (0 ≤ ca.value - a →
      DecrementValue ca a = ({ ca with value := ca.value - a }, none)) := by
  constructor
  · intro h
    rw [DecrementValue, if_neg (by omega), if_pos h]
    exact ⟨rfl, _, rfl⟩
  · intro h
    rw [DecrementValue, if_neg (by omega), if_neg (by omega)]

/-- C8 witness: value 10, decrement by 15 — the call errors and the stored
value stays 10. -/
theorem decrementValue_spec_witness :
    ((0 : Int) ≤ (ReconstituteCharacterAttribute 1 "Strength" 10 "char-1" 0).value ∧
     (0 : Int) ≤ 15 ∧
     (ReconstituteCharacterAttribute 1 "Strength" 10 "char-1" 0).value - 15 < 0) ∧
    ((ReconstituteCharacterAttribute 1 "Strength" 10 "char-1" 0).value - 15 < 0 →
      (DecrementValue (ReconstituteCharacterAttribute 1 "Strength" 10 "char-1" 0) 15).1 =
        ReconstituteCharacterAttribute 1 "Strength" 10 "char-1" 0 ∧
      ∃ e, (DecrementValue (ReconstituteCharacterAttribute 1 "Strength" 10 "char-1" 0) 15).2 =
        some e) :=
  ⟨⟨by decide, by decide, by decide⟩,
   (decrementValue_spec (ReconstituteCharacterAttribute 1 "Strength" 10 "char-1" 0) 15
     (by decide) (by decide)).1⟩

/-- C10: the `Reconstitute*` loading constructors perform no validation —
each returns an entity holding exactly the given field values, for every
combination of inputs (including out-of-range ones); by contrast, the
validating `New*` constructors reject such inputs (shown here for a negative
attribute value and a 1-character name, both accepted unchanged by the
loaders). -/
theorem reconstitute_no_validation :
    (∀ (id name : String) (level currentXp totalXp : Int) (userID : String) (createdAt : Int),
      (ReconstituteCharacter id name level currentXp totalXp userID createdAt).id = id ∧
      (ReconstituteCharacter id name level currentXp totalXp userID createdAt).name = name ∧
      (ReconstituteCharacter id name level currentXp totalXp userID createdAt).level = level ∧
      (ReconstituteCharacter id name level currentXp totalXp userID createdAt).currentXp
        = currentXp ∧
      (ReconstituteCharacter id name level currentXp totalXp userID createdAt).totalXp
        = totalXp ∧
      (ReconstituteCharacter id name level currentXp totalXp userID createdAt).userID
        = userID ∧
      (ReconstituteCharacter id name level currentXp totalXp userID createdAt).createdAt
        = createdAt) ∧
    (∀ (id : Int) (attributeName : String) (value : Int) (characterID : String)
      (createdAt : Int),
      (ReconstituteCharacterAttribute id attributeName value characterID createdAt).id = id ∧
      (ReconstituteCharacterAttribute id attributeName value characterID
        createdAt).attributeName = attributeName ∧
      (ReconstituteCharacterAttribute id attributeName value characterID createdAt).value
        = value ∧
      (ReconstituteCharacterAttribute id attributeName value characterID
        createdAt).characterID = characterID ∧
      (ReconstituteCharacterAttribute id attributeName value characterID createdAt).createdAt
        = createdAt) ∧
    (∃ e, NewCharacterAttribute "Strength" (-5) "char-1" 0 = .error e) ∧
    (ReconstituteCharacterAttribute 1 "Strength" (-5) "char-1" 0).value = -5 ∧
    (∃ e, NewCharacter "char-1" "X" "user-1" 0 = .error e) ∧
    (ReconstituteCharacter "char-1" "X" 0 (-5) (-7) "user-1" 0).name = "X" ∧
    (ReconstituteCharacter "char-1" "X" 0 (-5) (-7) "user-1" 0).level = 0 := by
  refine ⟨fun _ _ _ _ _ _ _ => ⟨rfl, rfl, rfl, rfl, rfl, rfl, rfl⟩,
    fun _ _ _ _ _ => ⟨rfl, rfl, rfl, rfl, rfl⟩, ⟨_, rfl⟩, rfl, ⟨_, rfl⟩, rfl, rfl⟩

/-- The base-attribute roster of `CreateCharacterUseCase`
(`var baseAttributes = ...`): seven named stats, each starting at 5. -/
def baseAttributes : List (String × Int) :=
  [("Força", 5), ("Constituição", 5), ("Vontade", 5), ("Sabedoria", 5),
   ("Inteligência", 5), ("Carisma", 5), ("Destreza", 5)]

/-- The persistent store visible to `CreateCharacterUseCase`: the character
table and the character-attribute table, each modelled as the list of rows in
insertion order; `Create` appends and `ExistsByUserID` scans. -/
structure RepoState where
  characters : List Character
  attributes : List CharacterAttribute
  deriving Repr, DecidableEq

/-- `characterRepo.ExistsByUserID`. -/
def existsByUserID (st : RepoState) (userID : String) : Bool :=
  st.characters.any (fun ch => ch.userID == userID)

/-- The base-attribute creation loop of `CreateCharacterUseCase.Execute`:
for each roster entry, build the entity with `NewCharacterAttribute` and
persist it; the first failure aborts (already-written rows stay written). -/
def createBaseAttributes (st : RepoState) (characterID : String) (now : Int) :
    List (String × Int) → Except String RepoState
  | [] => .ok st
  | p :: rest =>
    match NewCharacterAttribute p.1 p.2 characterID now with
    | .error e => .error ("failed to create base attribute: " ++ e)
    | .ok attr =>
      createBaseAttributes { st with attributes := st.attributes ++ [attr] }
        characterID now rest

/-- `CreateCharacterUseCase.Execute`: reject if the user already has a
character, build the entity (`newId` stands for the generated UUID, `now` for
`time.Now()`), persist it, then create the seven base attributes.  The Go
output DTO copies the character's fields; the character itself is returned
here. -/
def CreateCharacterExecute (st : RepoState) (newId : String) (name userID : String)
    (now : Int) : Except String (RepoState × Character) :=
  if existsByUserID st userID then .error "user already has a character"
  else
    match NewCharacter newId name userID now with
    | .error e => .error ("failed to create character: " ++ e)
    | .ok ch =>
      match createBaseAttributes { st with characters := st.characters ++ [ch] }
          ch.id now baseAttributes with
      | .error e => .error e
      | .ok st' => .ok (st', ch)

lemma newCharacter_ok (id name userID : String) (now : Int) (ch : Character)
    (h : NewCharacter id name userID now = .ok ch) : ¬id = "" ∧ ch.id = id := by
  rw [NewCharacter] at h
  split at h
  · exact absurd h (by simp)
  next hid =>
    split at h
    · exact absurd h (by simp)
    split at h
    · exact absurd h (by simp)
    split at h
    · exact absurd h (by simp)
    split at h
    · exact absurd h (by simp)
    injection h with h2
    exact ⟨hid, by rw [← h2]⟩

lemma newCharacterAttribute_mk (nm : String) (v : Int) (cid : String) (now : Int)
    (h1 : goTrim nm = nm) (h2 : ¬nm = "") (h3 : ¬goLen nm < 2) (h4 : ¬50 < goLen nm)
    (h5 : ¬v < 0) (hcid : ¬cid = "") :
    NewCharacterAttribute nm v cid now =
      .ok { id := 0, attributeName := nm, value := v, characterID := cid,
            createdAt := now } := by
  rw [NewCharacterAttribute, h1, if_neg h2, if_neg h3, if_neg h4, if_neg h5, if_neg hcid]

/-- On the concrete roster every `NewCharacterAttribute` call succeeds (names
are 2..50 bytes after trimming, values are 5 ≥ 0) as long as the owning
character id is nonempty, and the loop appends exactly one row per entry. -/
lemma createBaseAttributes_ok (st : RepoState) (cid : String) (now : Int)
    (hcid : ¬cid = "") :
    createBaseAttributes st cid now baseAttributes =
      .ok { st with attributes := st.attributes ++ baseAttributes.map (fun p =>
        { id := 0, attributeName := p.1, value := p.2, characterID := cid,
          createdAt := now }) } := by
  have hF := newCharacterAttribute_mk "Força" 5 cid now rfl (by decide) (by decide)
    (by decide) (by decide) hcid
  have hC := newCharacterAttribute_mk "Constituição" 5 cid now rfl (by decide) (by decide)
    (by decide) (by decide) hcid
  have hV := newCharacterAttribute_mk "Vontade" 5 cid now rfl (by decide) (by decide)
    (by decide) (by decide) hcid
  have hS := newCharacterAttribute_mk "Sabedoria" 5 cid now rfl (by decide) (by decide)
    (by decide) (by decide) hcid
  have hI := newCharacterAttribute_mk "Inteligência" 5 cid now rfl (by decide) (by decide)
    (by decide) (by decide) hcid
  have hCa := newCharacterAttribute_mk "Carisma" 5 cid now rfl (by decide) (by decide)
    (by decide) (by decide) hcid
  have hD := newCharacterAttribute_mk "Destreza" 5 cid now rfl (by decide) (by decide)
    (by decide) (by decide) hcid
  simp only [baseAttributes, createBaseAttributes, hF, hC, hV, hS, hI, hCa, hD,
    List.map_cons, List.map_nil, List.append_assoc, List.cons_append, List.nil_append]

/-- C2: whenever `CreateCharacterUseCase.Execute` succeeds, the store gains
the new character and exactly seven attribute rows for it — the fixed roster
of seven distinct names, each initialized to the constant value 5. -/
theorem createCharacter_creates_base_attributes (st : RepoState)
    (newId name userID : String) (now : Int) (st' : RepoState) (ch : Character)
    (h : CreateCharacterExecute st newId name userID now = .ok (st', ch)) :
    st'.characters = st.characters ++ [ch] ∧
    st'.attributes = st.attributes ++ baseAttributes.map (fun p =>
      { id := 0, attributeName := p.1, value := p.2, characterID := ch.id,
        createdAt := now }) ∧
    baseAttributes.length = 7 ∧
    (∀ p ∈ baseAttributes, p.2 = 5) ∧
    (baseAttributes.map Prod.fst).Nodup := by
  rw [CreateCharacterExecute] at h
  split at h
  · exact absurd h (by simp)
  split at h
  · exact absurd h (by simp)
  next ch0 hnew =>
    obtain ⟨hid, hchid⟩ := newCharacter_ok _ _ _ _ _ hnew
    rw [createBaseAttributes_ok _ _ _ (by rw [hchid]; exact hid)] at h
    simp only [Except.ok.injEq, Prod.mk.injEq] at h
    obtain ⟨hst, hch⟩ := h
    subst hch
    refine ⟨by rw [← hst], by rw [← hst], by decide, by decide, by decide⟩

/-- C2 witness: creating a character in an empty store yields the seven base
attribute rows. -/
theorem createCharacter_creates_base_attributes_witness :
    ∃ st' ch, CreateCharacterExecute ⟨[], []⟩ "char-1" "Hero" "user-1" 0 = .ok (st', ch) ∧
      st'.attributes = ([] : List CharacterAttribute) ++ baseAttributes.map (fun p =>
        { id := 0, attributeName := p.1, value := p.2, characterID := ch.id,
          createdAt := 0 }) := by
  have h : CreateCharacterExecute ⟨[], []⟩ "char-1" "Hero" "user-1" 0 =
      .ok (⟨[⟨"char-1", "Hero", 1, 0, 0, "user-1", 0⟩],
            baseAttributes.map (fun p => ⟨0, p.1, p.2, "char-1", 0⟩)⟩,
           ⟨"char-1", "Hero", 1, 0, 0, "user-1", 0⟩) := by rfl
  exact ⟨_, _, h, (createCharacter_creates_base_attributes _ _ _ _ _ _ _ h).2.1⟩

/-- Signing algorithms a token header can assert.  `ValidateToken`'s keyfunc
accepts exactly the `jwt.SigningMethodHMAC` family. -/
inductive SigAlg
  | HS256
  | HS384
  | HS512
  | RS256
  | ES256
  | algNone
  deriving Repr, DecidableEq

def SigAlg.isHMAC : SigAlg → Bool
  | .HS256 => true
  | .HS384 => true
  | .HS512 => true
  | _ => false

/-- `JWTServiceImpl`: symmetric secret key and the two configured durations
(seconds). -/
structure JWTService where
  secretKey : String
  accessTokenDuration : Int
  refreshTokenDuration : Int
  deriving Repr, DecidableEq

/-- `port.TokenClaims`, as returned by `ValidateToken`. -/
structure TokenClaims where
  userID : String
  email : String
  issuedAt : Int
  expiresAt : Int
  deriving Repr, DecidableEq

/-- A signed token, modelled symbolically: the `customClaims` payload
(user id, email, `iat`, `exp`, `nbf`), the algorithm the header asserts, and
the key the signature was produced with — `sigKey = s.secretKey` models a
signature that verifies under service `s`, any other value a signature under
a different key. -/
structure SignedToken where
  userID : String
  email : String
  issuedAt : Int
  expiresAt : Int
  notBefore : Int
  alg : SigAlg
  sigKey : String
  deriving Repr, DecidableEq

/-- `generateToken`: claims issued at `now`, expiring `duration` later,
HS256-signed with the service key. -/
def generateToken (s : JWTService) (userID email : String) (duration now : Int) :
    SignedToken :=
  { userID := userID, email := email, issuedAt := now, expiresAt := now + duration,
    notBefore := now, alg := .HS256, sigKey := s.secretKey }

def GenerateAccessToken (s : JWTService) (userID email : String) (now : Int) : SignedToken :=
  generateToken s userID email s.accessTokenDuration now

def GenerateRefreshToken (s : JWTService) (userID email : String) (now : Int) : SignedToken :=
  generateToken s userID email s.refreshTokenDuration now

/-- `ValidateToken` at current time `now`: the keyfunc rejects any asserted
algorithm outside the HMAC family, `jwt.ParseWithClaims` verifies the
signature against the service key and the registered `exp`/`nbf` claims
(valid iff `nbf ≤ now < exp`); every failure collapses to an error. -/
def ValidateToken (s : JWTService) (t : SignedToken) (now : Int) : Except String TokenClaims :=
  if ¬t.alg.isHMAC then .error "failed to parse token: unexpected signing method"
  else if t.sigKey ≠ s.secretKey then .error "failed to parse token: signature is invalid"
  else if t.expiresAt ≤ now then .error "failed to parse token: token is expired"
  else if now < t.notBefore then .error "failed to parse token: token is not valid yet"
  else .ok { userID := t.userID, email := t.email, issuedAt := t.issuedAt,
             expiresAt := t.expiresAt }

/-- `RefreshAccessToken`: validate the presented token — nothing in the
claims distinguishes access from refresh tokens — and issue a fresh access
token for the same subject and email. -/
def RefreshAccessToken (s : JWTService) (t : SignedToken) (now : Int) :
    Except String SignedToken :=
  match ValidateToken s t now with
  | .error _ => .error "invalid refresh token"
  | .ok claims => .ok (GenerateAccessToken s claims.userID claims.email now)

lemma validateToken_generated (s : JWTService) (userID email : String) (dur now v : Int)
    (h1 : now ≤ v) (h2 : v < now + dur) :
    ValidateToken s (generateToken s userID email dur now) v =
      .ok { userID := userID, email := email, issuedAt := now, expiresAt := now + dur } := by
  rw [generateToken, ValidateToken]
  rw [if_neg (by simp [SigAlg.isHMAC]), if_neg (by simp), if_neg (by simpa using by omega),
    if_neg (by simpa using by omega)]

/-- C5: a token issued by `GenerateAccessToken(userID, email)`, validated
while unexpired, yields claims with exactly the input user id and email and
`ExpiresAt = IssuedAt + accessTokenDuration`; and `ValidateToken` rejects
every token signed under a different key and every token asserting an
algorithm outside the HMAC family. -/
theorem jwt_roundtrip_and_rejection (s : JWTService) (userID email : String) (now v : Int)
    (h1 : now ≤ v) (h2 : v < now + s.accessTokenDuration) :
    (∃ c, ValidateToken s (GenerateAccessToken s userID email now) v = .ok c ∧
      c.userID = userID ∧ c.email = email ∧
      c.expiresAt = c.issuedAt + s.accessTokenDuration) ∧
    (∀ (t : SignedToken) (w : Int), t.sigKey ≠ s.secretKey ∨ t.alg.isHMAC = false →
      ∃ e, ValidateToken s t w = .error e) := by
  constructor
  · exact ⟨_, by rw [GenerateAccessToken, validateToken_generated s userID email _ now v h1 h2],
      rfl, rfl, rfl⟩
  · intro t w h
    by_cases halg : t.alg.isHMAC = true
    · have hk : t.sigKey ≠ s.secretKey := by
        rcases h with h | h
        · exact h
        · rw [halg] at h
          cases h
      rw [ValidateToken, if_neg (by simp [halg]), if_pos hk]
      exact ⟨_, rfl⟩
    · rw [ValidateToken, if_pos (by simpa using halg)]
      exact ⟨_, rfl⟩

/-- C5 witness: the theorem applied at a concrete service, subject, and
validation instant, plus a concrete rejected forgery. -/
theorem jwt_roundtrip_and_rejection_witness :
    ((0 : Int) ≤ 0 ∧ (0 : Int) < 0 + (⟨"secret", 900, 604800⟩ : JWTService).accessTokenDuration) ∧
    (∃ c, ValidateToken ⟨"secret", 900, 604800⟩
        (GenerateAccessToken ⟨"secret", 900, 604800⟩ "user-1" "a@b.com" 0) 0 = .ok c ∧
      c.userID = "user-1" ∧ c.email = "a@b.com" ∧
      c.expiresAt = c.issuedAt + (⟨"secret", 900, 604800⟩ : JWTService).accessTokenDuration) ∧
    (∀ (t : SignedToken) (w : Int),
      t.sigKey ≠ (⟨"secret", 900, 604800⟩ : JWTService).secretKey ∨ t.alg.isHMAC = false →
      ∃ e, ValidateToken ⟨"secret", 900, 604800⟩ t w = .error e) :=
  ⟨⟨by decide, by decide⟩,
   jwt_roundtrip_and_rejection ⟨"secret", 900, 604800⟩ "user-1" "a@b.com" 0 0
     (by decide) (by decide)⟩

/-- C9: token validation draws no access/refresh distinction — an unexpired
token produced by `GenerateAccessToken` is accepted by `RefreshAccessToken`,
which returns a fresh access token for the same subject and email. -/
theorem refresh_accepts_access_tokens (s : JWTService) (userID email : String) (now v : Int)
    (h1 : now ≤ v) (h2 : v < now + s.accessTokenDuration) :
    RefreshAccessToken s (GenerateAccessToken s userID email now) v =
      .ok (GenerateAccessToken s userID email v) ∧
    (GenerateAccessToken s userID email v).userID = userID ∧
    (GenerateAccessToken s userID email v).email = email := by
  refine ⟨?_, rfl, rfl⟩
  rw [RefreshAccessToken, GenerateAccessToken, validateToken_generated s userID email _ now v h1 h2]

/-- C9 witness: the theorem applied at a concrete service and instant. -/
theorem refresh_accepts_access_tokens_witness :
    ((0 : Int) ≤ 10 ∧ (10 : Int) < 0 + (⟨"secret", 900, 604800⟩ : JWTService).accessTokenDuration) ∧
    (RefreshAccessToken ⟨"secret", 900, 604800⟩
        (GenerateAccessToken ⟨"secret", 900, 604800⟩ "user-1" "a@b.com" 0) 10 =
      .ok (GenerateAccessToken ⟨"secret", 900, 604800⟩ "user-1" "a@b.com" 10) ∧
    (GenerateAccessToken ⟨"secret", 900, 604800⟩ "user-1" "a@b.com" 10).userID = "user-1" ∧
    (GenerateAccessToken ⟨"secret", 900, 604800⟩ "user-1" "a@b.com" 10).email = "a@b.com") :=
  ⟨⟨by decide, by decide⟩,
   refresh_accepts_access_tokens ⟨"secret", 900, 604800⟩ "user-1" "a@b.com" 0 10
     (by decide) (by decide)⟩

/-- `PostgresCharacterRepository.FindByIDAndUserID`: the `characters` table
is modelled as a list of rows; the query `WHERE id = $1 AND user_id = $2`
returns the first matching row, reconstituted, and `pgx.ErrNoRows` maps to
one fixed error for both "no such id" and "wrong owner". -/
def FindByIDAndUserID (db : List Character) (id userID : String) :
    Except String Character :=
  match db.find? (fun r => r.id == id && r.userID == userID) with
  | some r => .ok (ReconstituteCharacter r.id r.name r.level r.currentXp r.totalXp
      r.userID r.createdAt)
  | none => .error "character not found or does not belong to user"

/-- C6: the owner-scoped lookup returns a character only when a row with the
requested id exists under the authenticated user id; when no row with the id
exists, and when rows with the id exist only under other owners, it returns
the one identical "not found" error — no distinguishing "forbidden"
outcome. -/
theorem findByIDAndUserID_ownership (db : List Character) (id userID : String) :
    (∀ ch, FindByIDAndUserID db id userID = .ok ch →
      ch.id = id ∧ ch.userID = userID ∧ ch ∈ db) ∧
    ((∀ r ∈ db, r.id ≠ id) →
      FindByIDAndUserID db id userID =
        .error "character not found or does not belong to user") ∧
    ((∀ r ∈ db, r.id = id → r.userID ≠ userID) →
      FindByIDAndUserID db id userID =
        .error "character not found or does not belong to user") := by
  refine ⟨?_, ?_, ?_⟩
  · intro ch h
    rw [FindByIDAndUserID] at h
    cases hf : db.find? (fun r => r.id == id && r.userID == userID) with
    | none => rw [hf] at h; cases h
    | some r =>
      rw [hf] at h
      injection h with h
      have hpred := List.find?_some hf
      simp only [Bool.and_eq_true, beq_iff_eq] at hpred
      have hmem := List.mem_of_find?_eq_some hf
      rw [← h]
      exact ⟨hpred.1, hpred.2, hmem⟩
  · intro hnone
    rw [FindByIDAndUserID]
    rw [List.find?_eq_none.mpr (fun r hr => by
      simp only [Bool.and_eq_true, beq_iff_eq, not_and]
      intro hid
      exact absurd hid (hnone r hr))]
  · intro hother
    rw [FindByIDAndUserID]
    rw [List.find?_eq_none.mpr (fun r hr => by
      simp only [Bool.and_eq_true, beq_iff_eq, not_and]
      exact hother r hr)]

/-- C6 witness: against a store holding one character of user-1, looking up a
non-existent id and looking up the existing id as user-2 produce the same
error, while the owner's lookup succeeds. -/
theorem findByIDAndUserID_ownership_witness :
    FindByIDAndUserID [⟨"char-1", "Hero", 1, 0, 0, "user-1", 0⟩] "char-2" "user-1" =
      .error "character not found or does not belong to user" ∧
    FindByIDAndUserID [⟨"char-1", "Hero", 1, 0, 0, "user-1", 0⟩] "char-1" "user-2" =
      .error "character not found or does not belong to user" :=
  ⟨(findByIDAndUserID_ownership [⟨"char-1", "Hero", 1, 0, 0, "user-1", 0⟩]
      "char-2" "user-1").2.1 (by decide),
   (findByIDAndUserID_ownership [⟨"char-1", "Hero", 1, 0, 0, "user-1", 0⟩]
      "char-1" "user-2").2.2 (by decide)⟩

/-- Go `strings.ToLower`, restricted to the ASCII range the email regex later
accepts. -/
def goLower (s : String) : String :=
  ⟨s.data.map Char.toLower⟩

/-- Character class `[a-zA-Z0-9._%+\-]` of the local part of the email
regex. -/
def isLocalChar (c : Char) : Bool :=
  c.isAlphanum || c = '.' || c = '_' || c = '%' || c = '+' || c = '-'

/-- Character class `[a-zA-Z0-9.\-]` of the domain part. -/
def isDomainChar (c : Char) : Bool :=
  c.isAlphanum || c = '.' || c = '-'

/-- Decides whether the part after `@` matches `[a-zA-Z0-9.\-]+\.[a-zA-Z]{2,}$`:
the trailing maximal alphabetic run (which any anchored match must use as the
top-level domain, since the character just before it has to be a dot) must
have length ≥ 2, be preceded by a dot, and the dot by a nonempty run of
domain characters. -/
def emailTailOk (cs : List Char) : Bool :=
  match (cs.reverse.span Char.isAlpha).1, (cs.reverse.span Char.isAlpha).2 with
  | ru, '.' :: rt => decide (2 ≤ ru.length) && !rt.isEmpty && rt.all isDomainChar
  | _, _ => false

/-- Decides the anchored Go regex
`^[a-zA-Z0-9._%+\-]+@[a-zA-Z0-9.\-]+\.[a-zA-Z]{2,}$`: neither class contains
`@`, so a match splits the string at its unique `@` into a nonempty local
part and a domain matching `emailTailOk`. -/
def emailRegexMatches (s : String) : Bool :=
  match (s.data.span (fun c => c ≠ '@')).1, (s.data.span (fun c => c ≠ '@')).2 with
  | lp, '@' :: tl => !lp.isEmpty && lp.all isLocalChar && emailTailOk tl
  | _, _ => false

/-- `valueobject.NewEmail`: lowercase, trim, then validate non-emptiness, the
255-byte bound and the regex; returns the normalized address. -/
def NewEmail (email : String) : Except String String :=
  if goTrim (goLower email) = "" then .error "email cannot be empty"
  else if 255 < goLen (goTrim (goLower email)) then .error "email cannot exceed 255 characters"
  else if ¬emailRegexMatches (goTrim (goLower email)) then .error "invalid email format"
  else .ok (goTrim (goLower email))

/-- A row of the user store as `LoginUserUseCase` sees it: id, normalized
email, full name, stored password hash. -/
structure StoredUser where
  id : String
  email : String
  fullName : String
  password : String
  deriving Repr, DecidableEq

/-- The errors `LoginUserUseCase.Execute` can return: the single sentinel
`ErrInvalidCredentials`, or a wrapped token-generation failure. -/
inductive LoginError
  | invalidCredentials
  | tokenFailure (msg : String)
  deriving Repr, DecidableEq

/-- `LoginUserOutput`. -/
structure LoginOutput where
  userID : String
  email : String
  fullName : String
  accessToken : SignedToken
  refreshToken : SignedToken
  deriving Repr, DecidableEq

/-- `LoginUserUseCase.Execute`: validate the email (failure → the sentinel),
look the user up by email (`FindByEmail` failure → the sentinel), compare the
stored hash against the supplied password with the hasher (`Compare`,
modelled as the boolean `compare hash plaintext`; mismatch → the sentinel),
then issue both tokens (infallible in the symbolic model). -/
def LoginExecute (db : List StoredUser) (compare : String → String → Bool)
    (s : JWTService) (now : Int) (inputEmail inputPassword : String) :
    Except LoginError LoginOutput :=
  match NewEmail inputEmail with
  | .error _ => .error .invalidCredentials
  | .ok email =>
    match db.find? (fun u => u.email == email) with
    | none => .error .invalidCredentials
    | some user =>
      if ¬compare user.password inputPassword then .error .invalidCredentials
      else .ok { userID := user.id, email := user.email, fullName := user.fullName,
                 accessToken := GenerateAccessToken s user.id user.email now,
                 refreshToken := GenerateRefreshToken s user.id user.email now }

/-- C7: a malformed email, an unknown email, and a stored-hash mismatch all
make `LoginUserUseCase.Execute` return the one sentinel value
`ErrInvalidCredentials`, so the caller cannot tell the three cases apart. -/
theorem login_errors_single_sentinel (db : List StoredUser) (compare : String → String → Bool)
    (s : JWTService) (now : Int) (em pw : String) :
    ((∃ msg, NewEmail em = .error msg) →
      LoginExecute db compare s now em pw = .error .invalidCredentials) ∧
    (∀ e, NewEmail em = .ok e → (∀ u ∈ db, u.email ≠ e) →
      LoginExecute db compare s now em pw = .error .invalidCredentials) ∧
    (∀ e u, NewEmail em = .ok e → db.find? (fun v => v.email == e) = some u →
      compare u.password pw = false →
      LoginExecute db compare s now em pw = .error .invalidCredentials) := by
  refine ⟨?_, ?_, ?_⟩
  · intro ⟨msg, hmsg⟩
    rw [LoginExecute, hmsg]
  · intro e he hnone
    have hfind : db.find? (fun u => u.email == e) = none :=
      List.find?_eq_none.mpr (fun u hu => by
        simp only [beq_iff_eq]
        exact hnone u hu)
    rw [LoginExecute, he]
    simp only [hfind]
  · intro e u he hfind hcmp
    rw [LoginExecute, he]
    simp [hfind, hcmp]

/-- C7 witness: one user store, three concrete logins — malformed email,
unknown email, wrong password — all returning `ErrInvalidCredentials`. -/
theorem login_errors_single_sentinel_witness :
    LoginExecute [⟨"u1", "a@b.com", "Alice", "hashpw"⟩] (fun h p => h == p)
      ⟨"secret", 900, 604800⟩ 0 "not-an-email" "pw" = .error .invalidCredentials ∧
    LoginExecute [⟨"u1", "a@b.com", "Alice", "hashpw"⟩] (fun h p => h == p)
      ⟨"secret", 900, 604800⟩ 0 "c@d.com" "pw" = .error .invalidCredentials ∧
    LoginExecute [⟨"u1", "a@b.com", "Alice", "hashpw"⟩] (fun h p => h == p)
      ⟨"secret", 900, 604800⟩ 0 "a@b.com" "wrong" = .error .invalidCredentials :=
  ⟨(login_errors_single_sentinel _ _ _ _ _ _).1 ⟨_, rfl⟩,
   (login_errors_single_sentinel _ _ _ _ _ _).2.1 "c@d.com" rfl (by decide),
   (login_errors_single_sentinel _ _ _ _ _ _).2.2 "a@b.com" ⟨"u1", "a@b.com", "Alice", "hashpw"⟩
     rfl rfl rfl⟩

end ChronoTask
